import Mathlib

/-!
Shallow embedding of the extended-query execution engine of the
`tokio-postgres` arena client (files `src/arena/{query,row,statement,
prepare,client,to_statement}.rs` and `src/client.rs`).

Conventions of the embedding:
* Backend messages arrive already decoded, so a `Responses` channel is a
  `List Message`; the connection-driving task closing the channel is the
  end of the list.
* Byte buffers submitted to the connection are lists of protocol frames
  (`Frame`); the functions that submit buffers also return the list of
  buffers they handed to the channel, so "nothing was sent" is provable.
* A `DataRowBody` is modelled after parsing: the per-field payloads of the
  DataRow message, `none` standing for the SQL NULL length marker, and a
  byte-range into the row buffer is collapsed with the bytes it denotes.
* Machine integers are `Nat`; `u64::parse` overflow is an explicit
  `< 2 ^ 64` bound.
-/

/-- The wire type of a value, reduced to its OID (`postgres_types::Type`).
The full catalog metadata plays no role in the verified code paths. -/
structure PType where
  oid : Nat
deriving DecidableEq, Repr

/-- `arena::statement::Column`: name, optional owning-table OID, optional
field ordinal, resolved type. -/
structure Column where
  name : String
  table_oid : Option Nat
  column_id : Option Int
  type : PType
deriving DecidableEq, Repr

/-- The immutable payload of `arena::statement::StatementInner`, without the
weak back-reference to the client (the upgrade outcome of that weak
reference is passed explicitly to `statementInnerDrop`). -/
structure Statement where
  name : String
  params : List PType
  columns : List Column
deriving DecidableEq, Repr

/-- The decoded payload of a backend DataRow message: one entry per field
of the message, `none` denoting SQL NULL. `fields.length` is the field
count the backend declared in the message. -/
structure DataRowBody where
  fields : List (Option (List Nat))
deriving DecidableEq, Repr

/-- Decoded field of a RowDescription message. -/
structure FieldDescription where
  name : String
  table_oid : Nat
  column_id : Int
  type_oid : Nat
deriving DecidableEq, Repr

/-- Decoded backend messages (`postgres_protocol::message::backend::Message`),
restricted to the kinds the verified code matches on; `closeComplete` stands
in for the remaining kinds hit by the catch-all arms. -/
inductive Message where
  | parseComplete
  | bindComplete
  | parameterDescription (oids : List Nat)
  | rowDescription (fields : List FieldDescription)
  | noData
  | dataRow (body : DataRowBody)
  | commandComplete (tag : String)
  | emptyQueryResponse
  | portalSuspended
  | readyForQuery
  | errorResponse (e : String)
  | closeComplete
deriving DecidableEq, Repr

/-- The error taxonomy (`crate::Error`) restricted to the constructors the
verified paths produce. `unwrapAbort` models a `panic!` via `.unwrap()`,
which is not an `Error` at all in the source; it is kept as a constructor so
that its unreachability is a provable statement. -/
inductive Err where
  | closed
  | db (msg : String)
  | unexpectedMessage
  | parameters (actual expected : Nat)
  | column (name : String)
  | toSql (idx : Nat)
  | wrongType (idx : Nat)
  | fromSql (idx : Nat) (msg : String)
  | rowCount
  | parse (msg : String)
  | unwrapAbort
deriving DecidableEq, Repr

/-- Outbound protocol frames (`postgres_protocol::message::frontend`), at the
granularity the claims need. A submitted buffer is a `List Frame`. -/
inductive Frame where
  | parse (name query : String) (paramOids : List Nat)
  | bind (portal stmtName : String) (formats : List Nat)
      (values : List (Option (List Nat)))
  | describeStatement (name : String)
  | execute (portal : String) (maxRows : Nat)
  | sync
  | close (name : String)
deriving DecidableEq, Repr

/-- `str::split(' ')` on a list of characters: Rust's splitter always yields
at least one (possibly empty) piece, and `rsplit(' ').next()` is the last
piece of this list. -/
def splitOnSpace : List Char → List (List Char)
  | [] => [[]]
  | c :: cs =>
    if c = ' ' then [] :: splitOnSpace cs
    else
      match splitOnSpace cs with
      | [] => [[c]]
      | t :: ts => (c :: t) :: ts

/-- Numeric value of a digit string, most significant first. -/
def digitsVal (l : List Char) : Nat :=
  l.foldl (fun acc c => acc * 10 + (c.toNat - 48)) 0

/-- Rust `str::parse::<u64>()` on a list of characters: an optional leading
`+`, then one or more ASCII digits, value below `2 ^ 64`. -/
def parseU64 (l : List Char) : Option Nat :=
  let l' := match l with
    | '+' :: rest => rest
    | _ => l
  if l' = [] then none
  else if l'.all Char.isDigit then
    if digitsVal l' < 2 ^ 64 then some (digitsVal l') else none
  else none

/-- `arena::query::extract_row_affected`: take the trailing
space-delimited token of the CommandComplete tag (`rsplit(' ').next()`,
whose `.unwrap()` is modelled by the `Err.unwrapAbort` branch), parse it as
`u64`, defaulting to 0 via `unwrap_or(0)`. The tag is modelled after UTF-8
decoding, so the `tag()` decode error of the source cannot arise here. -/
def extract_row_affected (tag : String) : Except Err Nat :=
  match (splitOnSpace tag.data).getLast? with
  | none => .error .unwrapAbort
  | some t => .ok ((parseU64 t).getD 0)

theorem splitOnSpace_cons_space (cs : List Char) :
    splitOnSpace (' ' :: cs) = [] :: splitOnSpace cs := by
  simp [splitOnSpace]

theorem splitOnSpace_cons_of_ne (c : Char) (cs : List Char) (h : c ≠ ' ') :
    splitOnSpace (c :: cs) =
      match splitOnSpace cs with
      | [] => [[c]]
      | t :: ts => (c :: t) :: ts := by
  simp [splitOnSpace, h]

theorem splitOnSpace_ne_nil (l : List Char) : splitOnSpace l ≠ [] := by
  cases l with
  | nil => simp [splitOnSpace]
  | cons c cs =>
    by_cases h : c = ' '
    · subst h
      rw [splitOnSpace_cons_space]
      simp
    · rw [splitOnSpace_cons_of_ne c cs h]
      cases splitOnSpace cs <;> simp

theorem splitOnSpace_no_space (l : List Char) (h : ' ' ∉ l) :
    splitOnSpace l = [l] := by
  induction l with
  | nil => simp [splitOnSpace]
  | cons c cs ih =>
    simp only [List.mem_cons, not_or] at h
    have hc : c ≠ ' ' := fun hc => h.1 hc.symm
    rw [splitOnSpace_cons_of_ne c cs hc, ih h.2]

theorem splitOnSpace_length_pos (l : List Char) :
    1 ≤ (splitOnSpace l).length := by
  cases h : splitOnSpace l with
  | nil => exact absurd h (splitOnSpace_ne_nil l)
  | cons a as => simp

theorem splitOnSpace_append_length (l₁ l₂ : List Char) :
    2 ≤ (splitOnSpace (l₁ ++ ' ' :: l₂)).length := by
  induction l₁ with
  | nil =>
    rw [List.nil_append, splitOnSpace_cons_space, List.length_cons]
    have := splitOnSpace_length_pos l₂
    omega
  | cons c cs ih =>
    by_cases hc : c = ' '
    · subst hc
      rw [List.cons_append, splitOnSpace_cons_space, List.length_cons]
      have := splitOnSpace_length_pos (cs ++ ' ' :: l₂)
      omega
    · rw [List.cons_append, splitOnSpace_cons_of_ne c _ hc]
      cases h : splitOnSpace (cs ++ ' ' :: l₂) with
      | nil => exact absurd h (splitOnSpace_ne_nil _)
      | cons t ts =>
        rw [h] at ih
        simp only [List.length_cons] at ih ⊢
        omega

theorem splitOnSpace_getLast_append (l₁ l₂ : List Char) :
    (splitOnSpace (l₁ ++ ' ' :: l₂)).getLast? = (splitOnSpace l₂).getLast? := by
  induction l₁ with
  | nil =>
    rw [List.nil_append, splitOnSpace_cons_space]
    cases h : splitOnSpace l₂ with
    | nil => exact absurd h (splitOnSpace_ne_nil _)
    | cons a as => simp [List.getLast?_cons_cons]
  | cons c cs ih =>
    by_cases hc : c = ' '
    · subst hc
      rw [List.cons_append, splitOnSpace_cons_space]
      cases h : splitOnSpace (cs ++ ' ' :: l₂) with
      | nil => exact absurd h (splitOnSpace_ne_nil _)
      | cons a as =>
        rw [h] at ih
        rw [← ih, List.getLast?_cons_cons]
    · rw [List.cons_append, splitOnSpace_cons_of_ne c _ hc]
      cases h : splitOnSpace (cs ++ ' ' :: l₂) with
      | nil => exact absurd h (splitOnSpace_ne_nil _)
      | cons t ts =>
        have hlen := splitOnSpace_append_length cs l₂
        rw [h] at hlen ih
        cases ts with
        | nil => simp at hlen
        | cons t' ts' =>
          rw [← ih]
          rw [List.getLast?_cons_cons, List.getLast?_cons_cons]

/-- `client::Responses::poll_next` over an already-decoded message sequence:
an `ErrorResponse` at the head becomes a database error, the end of the
sequence (the connection-driving task closed the channel) becomes `Closed`,
and every other message is handed through unchanged together with the rest
of the sequence. -/
def responsesNext : List Message → Except Err (Message × List Message)
  | [] => .error .closed
  | .errorResponse e :: _ => .error (.db e)
  | m :: rest => .ok (m, rest)

/-- `InnerClient::send`: hand one encoded buffer to the connection-driving
task's channel; fails with `Closed` when that channel is gone. The messages
that will arrive on the fresh response channel are environment input and are
threaded separately. -/
def innerClientSend (connOpen : Bool) (_buf : List Frame) : Except Err Unit :=
  if connOpen then .ok () else .error .closed

/-- A value parameter as the query encoder sees it
(`postgres_types::BorrowToSql`): its format negotiation with the target type
and its checked binary encoding, which may fail (conversion error) or
produce NULL. -/
structure Param where
  encodeFormat : PType → Nat
  toSql : PType → Except String (Option (List Nat))

/-- The value-encoding pass inside `frontend::bind` in
`arena::query::encode_bind_raw`: values are encoded in order and the first
conversion failure aborts with its parameter index (the source's
`error_idx`). -/
def encodeValues : Nat → List (Param × PType) → Except Err (List (Option (List Nat)))
  | _, [] => .ok []
  | i, (p, t) :: rest =>
    match p.toSql t with
    | .error _ => .error (.toSql i)
    | .ok v =>
      match encodeValues (i + 1) rest with
      | .error e => .error e
      | .ok vs => .ok (v :: vs)

/-- `arena::query::encode_bind_raw`: compute the per-parameter formats, then
encode the values, producing one Bind frame. -/
def encode_bind_raw (stmtName : String) (pairs : List (Param × PType))
    (portal : String) : Except Err Frame :=
  let formats := pairs.map (fun pt => pt.1.encodeFormat pt.2)
  match encodeValues 0 pairs with
  | .error e => .error e
  | .ok vals => .ok (.bind portal stmtName formats vals)

/-- `arena::query::encode_bind`: the parameter-count gate, then
`encode_bind_raw` on the parameters zipped with the statement's declared
parameter types. -/
def encode_bind (statement : Statement) (params : List Param)
    (portal : String) : Except Err Frame :=
  if params.length ≠ statement.params.length then
    .error (.parameters params.length statement.params.length)
  else
    encode_bind_raw statement.name (params.zip statement.params) portal

/-- `arena::query::encode`: Bind + Execute(max_rows=0) + Sync in one buffer. -/
def encode (statement : Statement) (params : List Param) :
    Except Err (List Frame) :=
  match encode_bind statement params "" with
  | .error e => .error e
  | .ok b => .ok [b, .execute "" 0, .sync]

/-- `arena::row::Row`: statement handle, DataRow body, and the parsed
per-column entries (the source's byte-range vector, with each range
collapsed with the payload bytes it indexes). -/
structure Row where
  statement : Statement
  body : DataRowBody
  ranges : List (Option (List Nat))
deriving DecidableEq, Repr

/-- `arena::row::Row::new`: collect the body's parsed field entries; no
check against the statement's column count is performed. The body arrives
already decoded, so the source's parse-error path cannot arise here. -/
def Row.new (statement : Statement) (body : DataRowBody) : Row :=
  { statement := statement, body := body, ranges := body.fields }

/-- `arena::row::Row::col_buffer`, with the slice-indexing `self.ranges[idx]`
made total: the outer `none` models the out-of-bounds abort, the inner
option is the source's `Option<&[u8]>` (NULL vs. payload). -/
def Row.col_buffer (row : Row) (idx : Nat) : Option (Option (List Nat)) :=
  row.ranges.get? idx

/-- `Iterator::position` as used by the `RowIndex` impl for `str`:
index of the first element satisfying the predicate, in declaration order. -/
def position (p : Column → Bool) : List Column → Option Nat
  | [] => none
  | c :: cs => if p c then some 0 else (position p cs).map (· + 1)

/-- Per-character ASCII lowercasing (`u8::to_ascii_lowercase`). -/
def asciiLower (c : Char) : Char :=
  if 'A' ≤ c ∧ c ≤ 'Z' then Char.ofNat (c.toNat + 32) else c

/-- `str::eq_ignore_ascii_case`. -/
def eqIgnoreAsciiCase (a b : String) : Bool :=
  a.data.map asciiLower = b.data.map asciiLower

/-- The `RowIndex` impl for `usize` (`arena::row`): bounds check only. -/
def rowIndexUsize (i : Nat) (columns : List Column) : Option Nat :=
  if i ≥ columns.length then none else some i

/-- The `RowIndex` impl for `str` (`arena::row`): first exact name match in
declaration order, then first ASCII case-insensitive match. -/
def rowIndexStr (s : String) (columns : List Column) : Option Nat :=
  match position (fun d => d.name = s) columns with
  | some idx => some idx
  | none => position (fun d => eqIgnoreAsciiCase d.name s) columns

/-- The target type of a row extraction (`FromSql`): which column types it
accepts and how it decodes a nullable payload. -/
structure FromSqlTarget (α : Type) where
  accepts : PType → Bool
  fromSqlNullable : PType → Option (List Nat) → Except String α

/-- `arena::row::Row::get_inner`, parameterized by the already-resolved
column position (`RowIndex::__idx` result) and the display form of the
index used in the column-not-found error. The two `Err.unwrapAbort`-free
slice indexings of the source are made total with an explicit abort model
via `Option.get?`-style lookups; both are unreachable for positions
produced by `rowIndexUsize`/`rowIndexStr`. -/
def get_inner {α : Type} (T : FromSqlTarget α) (row : Row)
    (resolved : Option Nat) (idxDisplay : String) : Except Err α :=
  match resolved with
  | none => .error (.column idxDisplay)
  | some idx =>
    match row.statement.columns.get? idx with
    | none => .error .unwrapAbort
    | some col =>
      if T.accepts col.type = false then
        .error (.wrongType idx)
      else
        match row.col_buffer idx with
        | none => .error .unwrapAbort
        | some payload =>
          match T.fromSqlNullable col.type payload with
          | .error e => .error (.fromSql idx e)
          | .ok v => .ok v

/-- `Row::try_get` with a numeric index. -/
def tryGetNat {α : Type} (T : FromSqlTarget α) (row : Row) (i : Nat) :
    Except Err α :=
  get_inner T row (rowIndexUsize i row.statement.columns) (toString i)

/-- `Row::try_get` with a string index. -/
def tryGetStr {α : Type} (T : FromSqlTarget α) (row : Row) (s : String) :
    Except Err α :=
  get_inner T row (rowIndexStr s row.statement.columns) s

/-- `Drop for StatementInner` (`arena::statement`): returns the buffers
submitted to the connection channel. `upgraded` is the outcome of
`self.client.upgrade()`; `connOpen` is whether the connection-driving
task's channel is still accepting buffers. The result of
`client.send(..)` is bound to `_` in the source, so the drop surfaces no
error — its return type has no error component at all. -/
def statementInnerDrop (name : String) (upgraded : Bool) (connOpen : Bool) :
    List (List Frame) :=
  if name.isEmpty then []
  else
    match upgraded with
    | true =>
      let buf := [Frame.close name, Frame.sync]
      let _ := innerClientSend connOpen buf
      [buf]
    | false => []

/-- `arena::query::start`: submit the encoded buffer and require a single
leading BindComplete. Returns the rest of the response sequence, paired
with the list of buffers that were handed to the connection channel. -/
def start (connOpen : Bool) (msgs : List Message) (buf : List Frame) :
    Except Err (List Message) × List (List Frame) :=
  match innerClientSend connOpen buf with
  | .error e => (.error e, [])
  | .ok _ =>
    match responsesNext msgs with
    | .error e => (.error e, [buf])
    | .ok (.bindComplete, rest) => (.ok rest, [buf])
    | .ok _ => (.error .unexpectedMessage, [buf])

/-- The state of an `arena::query::RowStream`: statement handle, remaining
response sequence, and the last-seen affected-row count. -/
structure RowStreamState where
  statement : Statement
  responses : List Message
  rows_affected : Option Nat
deriving DecidableEq, Repr

/-- Outcome of one poll of `Stream for RowStream`. -/
inductive StreamStep where
  | yield (r : Row) (rest : List Message) (ra : Option Nat)
  | finished (ra : Option Nat)
  | fail (e : Err)
deriving DecidableEq, Repr

/-- `Stream for RowStream::poll_next` (`arena::query`), run until it leaves
its inner loop: DataRow yields a `Row`; CommandComplete updates the
affected-row counter and loops; EmptyQueryResponse and PortalSuspended
loop; ReadyForQuery finishes the stream; the end of the sequence and an
ErrorResponse fail through `Responses::poll_next`; anything else fails with
`unexpectedMessage`. -/
def rowStreamNext (stmt : Statement) : Option Nat → List Message → StreamStep
  | _, [] => .fail .closed
  | _, .errorResponse e :: _ => .fail (.db e)
  | ra, .dataRow body :: rest => .yield (Row.new stmt body) rest ra
  | _, .commandComplete tag :: rest =>
    match extract_row_affected tag with
    | .error e => .fail e
    | .ok n => rowStreamNext stmt (some n) rest
  | ra, .emptyQueryResponse :: rest => rowStreamNext stmt ra rest
  | ra, .portalSuspended :: rest => rowStreamNext stmt ra rest
  | ra, .readyForQuery :: _ => .finished ra
  | _, _ :: _ => .fail .unexpectedMessage

theorem rowStreamNext_yield_length (stmt : Statement) :
    ∀ (msgs : List Message) (ra : Option Nat) (r : Row)
      (rest : List Message) (ra' : Option Nat),
      rowStreamNext stmt ra msgs = .yield r rest ra' →
      rest.length < msgs.length := by
  intro msgs
  induction msgs with
  | nil => intro ra r rest ra' h; simp [rowStreamNext] at h
  | cons m ms ih =>
    intro ra r rest ra' h
    cases m with
    | dataRow body =>
      simp only [rowStreamNext, StreamStep.yield.injEq] at h
      obtain ⟨-, h₂, -⟩ := h
      subst h₂
      simp
    | commandComplete tag =>
      simp only [rowStreamNext] at h
      cases hx : extract_row_affected tag with
      | error e => rw [hx] at h; exact absurd h (by simp)
      | ok n =>
        rw [hx] at h
        exact Nat.lt_trans (ih (some n) r rest ra' h) (by simp)
    | emptyQueryResponse =>
      simp only [rowStreamNext] at h
      exact Nat.lt_trans (ih ra r rest ra' h) (by simp)
    | portalSuspended =>
      simp only [rowStreamNext] at h
      exact Nat.lt_trans (ih ra r rest ra' h) (by simp)
    | parseComplete => simp [rowStreamNext] at h
    | bindComplete => simp [rowStreamNext] at h
    | parameterDescription oids => simp [rowStreamNext] at h
    | rowDescription fields => simp [rowStreamNext] at h
    | noData => simp [rowStreamNext] at h
    | readyForQuery => simp [rowStreamNext] at h
    | errorResponse e => simp [rowStreamNext] at h
    | closeComplete => simp [rowStreamNext] at h

/-- The loop body of `Client::query_opt` / `Client::query_opt_in`: pull rows
one at a time from the row stream; a second row is a `RowCount` error; the
stream's normal end returns the single row found, if any. -/
def queryOptLoop (stmt : Statement) (first : Option Row) (ra : Option Nat)
    (msgs : List Message) : Except Err (Option Row) :=
  match h : rowStreamNext stmt ra msgs with
  | .fail e => .error e
  | .finished _ => .ok first
  | .yield row rest ra' =>
    if first.isSome then .error .rowCount
    else queryOptLoop stmt (some row) ra' rest
termination_by msgs.length
decreasing_by
  exact rowStreamNext_yield_length stmt msgs ra row rest ra' h

/-- Modelled from the spec: the type-catalog collaborator of
`crate::prepare::get_type` (whose source is not part of this excerpt).
Per the spec's collaborator contract, `resolve(oid) -> Type` returns the
resolved type metadata for an OID, memoized; only the OID matters here. -/
def TypeCatalog : Type := Nat → PType

/-- Column construction in `arena::prepare::prepare_in` /
`arena::query::query_typed_in`: a table OID or column ordinal of zero is
normalized to `none`. -/
def columnOfField (resolve : TypeCatalog) (f : FieldDescription) : Column :=
  { name := f.name
    table_oid := if f.table_oid = 0 then none else some f.table_oid
    column_id := if f.column_id = 0 then none else some f.column_id
    type := resolve f.type_oid }

/-- `arena::prepare::encode`: Parse + Describe('S') + Sync. -/
def prepareEncode (name query : String) (types : List PType) : List Frame :=
  [.parse name query (types.map PType.oid), .describeStatement name, .sync]

/-- `arena::prepare::prepare_in` after the buffer has been submitted: the
response sequence must begin ParseComplete, then ParameterDescription, then
RowDescription or NoData; each position pulls through
`Responses::poll_next`. Parameter OIDs and column type OIDs are resolved
through the type catalog. -/
def prepare_in (name : String) (resolve : TypeCatalog)
    (msgs : List Message) : Except Err Statement :=
  match responsesNext msgs with
  | .error e => .error e
  | .ok (.parseComplete, r1) =>
    match responsesNext r1 with
    | .error e => .error e
    | .ok (.parameterDescription oids, r2) =>
      match responsesNext r2 with
      | .error e => .error e
      | .ok (.rowDescription fields, _) =>
        .ok { name := name
              params := oids.map resolve
              columns := fields.map (columnOfField resolve) }
      | .ok (.noData, _) =>
        .ok { name := name, params := oids.map resolve, columns := [] }
      | .ok _ => .error .unexpectedMessage
    | .ok _ => .error .unexpectedMessage
  | .ok _ => .error .unexpectedMessage

/-- The drain loop of `arena::query::execute_in` after the leading
BindComplete: DataRow is skipped, CommandComplete re-parses the affected
count, EmptyQueryResponse resets it to 0, ReadyForQuery returns the count,
anything else (including PortalSuspended) is an unexpected-message error;
pulls go through `Responses::poll_next`. -/
def executeDrain : Nat → List Message → Except Err Nat
  | _, [] => .error .closed
  | _, .errorResponse e :: _ => .error (.db e)
  | rows, .dataRow _ :: rest => executeDrain rows rest
  | _, .commandComplete tag :: rest =>
    match extract_row_affected tag with
    | .error e => .error e
    | .ok n => executeDrain n rest
  | _, .emptyQueryResponse :: rest => executeDrain 0 rest
  | rows, .readyForQuery :: _ => .ok rows
  | _, _ :: _ => .error .unexpectedMessage

/-- `arena::query::query_in`: encode Bind+Execute+Sync, submit, require the
leading BindComplete, and hand back the row stream. The second component
is the list of buffers submitted to the connection channel. -/
def query_in (connOpen : Bool) (statement : Statement) (params : List Param)
    (msgs : List Message) : Except Err RowStreamState × List (List Frame) :=
  match encode statement params with
  | .error e => (.error e, [])
  | .ok buf =>
    match start connOpen msgs buf with
    | (.error e, sent) => (.error e, sent)
    | (.ok rest, sent) =>
      (.ok { statement := statement, responses := rest, rows_affected := none },
       sent)

/-- `arena::query::execute_in`: encode Bind+Execute+Sync, submit, require
the leading BindComplete, then drain to the affected-row count. The second
component is the list of buffers submitted to the connection channel. -/
def execute_in (connOpen : Bool) (statement : Statement) (params : List Param)
    (msgs : List Message) : Except Err Nat × List (List Frame) :=
  match encode statement params with
  | .error e => (.error e, [])
  | .ok buf =>
    match start connOpen msgs buf with
    | (.error e, sent) => (.error e, sent)
    | (.ok rest, sent) => (executeDrain 0 rest, sent)

/-- `Client::query_opt_in` (`arena::client`), over an already-resolved
statement: start the row stream via `query_raw_in`, then run the
at-most-one-row loop. -/
def query_opt_in (connOpen : Bool) (statement : Statement)
    (params : List Param) (msgs : List Message) :
    Except Err (Option Row) × List (List Frame) :=
  match query_in connOpen statement params msgs with
  | (.error e, sent) => (.error e, sent)
  | (.ok rs, sent) =>
    (queryOptLoop rs.statement none rs.rows_affected rs.responses, sent)

/-- The response loop of `arena::query::query_typed_in`:
ParseComplete, BindComplete and ParameterDescription are skipped; NoData
yields a stream over an empty-column unnamed statement; RowDescription
yields one over its parsed columns; other messages are unexpected-message
errors; pulls go through `Responses::poll_next`. -/
def queryTypedAwait (resolve : TypeCatalog) :
    List Message → Except Err RowStreamState
  | [] => .error .closed
  | .errorResponse e :: _ => .error (.db e)
  | .parseComplete :: rest => queryTypedAwait resolve rest
  | .bindComplete :: rest => queryTypedAwait resolve rest
  | .parameterDescription _ :: rest => queryTypedAwait resolve rest
  | .noData :: rest =>
    .ok { statement := { name := "", params := [], columns := [] }
          responses := rest, rows_affected := none }
  | .rowDescription fields :: rest =>
    .ok { statement := { name := "", params := []
                         columns := fields.map (columnOfField resolve) }
          responses := rest, rows_affected := none }
  | _ :: _ => .error .unexpectedMessage

/-- `arena::query::query_typed_in`: encode
Parse(unnamed)+Bind(unnamed)+Describe('S',"")+Execute+Sync in one buffer,
submit it, then run the response loop to synthesize the unnamed statement
for the row stream. The second component is the list of buffers submitted
to the connection channel. -/
def query_typed_in (connOpen : Bool) (query : String)
    (params : List (Param × PType)) (resolve : TypeCatalog)
    (msgs : List Message) : Except Err RowStreamState × List (List Frame) :=
  match encodeValues 0 params with
  | .error e => (.error e, [])
  | .ok vals =>
    let buf := [Frame.parse "" query (params.map (fun pt => pt.2.oid)),
                Frame.bind "" "" (params.map (fun pt => pt.1.encodeFormat pt.2)) vals,
                Frame.describeStatement "",
                Frame.execute "" 0,
                Frame.sync]
    match innerClientSend connOpen buf with
    | .error e => (.error e, [])
    | .ok _ => (queryTypedAwait resolve msgs, [buf])

/-- C1: for every statement `S` and parameter list `P`, both `execute` and
`query` on `S` with `len(P) ≠ len(S.params())` fail with a
parameters-count error during encoding, and no buffer is submitted to the
connection channel. -/
theorem execute_query_param_count_gate (connOpen : Bool) (stmt : Statement)
    (params : List Param) (msgs : List Message)
    (h : params.length ≠ stmt.params.length) :
    execute_in connOpen stmt params msgs =
      (.error (.parameters params.length stmt.params.length), []) ∧
    query_in connOpen stmt params msgs =
      (.error (.parameters params.length stmt.params.length), []) := by
  have he : encode stmt params =
      .error (.parameters params.length stmt.params.length) := by
    simp [encode, encode_bind, h]
  constructor
  · simp [execute_in, he]
  · simp [query_in, he]

/-- C1 witness: a statement declaring one parameter, executed with none. -/
theorem execute_query_param_count_gate_witness :
    execute_in true { name := "s0", params := [⟨23⟩], columns := [] } [] [] =
      (.error (.parameters 0 1), []) ∧
    query_in true { name := "s0", params := [⟨23⟩], columns := [] } [] [] =
      (.error (.parameters 0 1), []) :=
  execute_query_param_count_gate true
    { name := "s0", params := [⟨23⟩], columns := [] } [] [] (by decide)

theorem extract_ok_exists (tag : String) :
    (splitOnSpace tag.data).getLast?.isSome = true ∧
    ∃ n, extract_row_affected tag = .ok n := by
  cases h : (splitOnSpace tag.data).getLast? with
  | none =>
    exact absurd (List.getLast?_eq_none_iff.mp h) (splitOnSpace_ne_nil _)
  | some t =>
    refine ⟨by simp [h], (parseU64 t).getD 0, ?_⟩
    simp [extract_row_affected, h]

/-- C10: `extract_row_affected` is total — the
`rsplit(' ').next().unwrap()` is unreachable because splitting always
yields at least one piece, and an unparsable trailing token falls back
to 0, so the result is `Ok` for every tag. -/
theorem extract_row_affected_total (tag : String) :
    (splitOnSpace tag.data).getLast?.isSome = true ∧
    ∃ n, extract_row_affected tag = .ok n :=
  extract_ok_exists tag

/-- C4: the affected-row count of a CommandComplete tag is the trailing
space-delimited token parsed as `u64`, defaulting to 0 when unparsable or
when the tag has no space at all; in particular `"UPDATE 3"` yields 3,
`"INSERT 0 5"` yields 5 and `"SELECT"` yields 0. -/
theorem extract_row_affected_trailing_token :
    (∀ (pre tok : List Char), ' ' ∉ tok →
      extract_row_affected (String.mk (pre ++ ' ' :: tok)) =
        .ok ((parseU64 tok).getD 0)) ∧
    (∀ (tag : List Char), ' ' ∉ tag →
      extract_row_affected (String.mk tag) = .ok ((parseU64 tag).getD 0)) ∧
    extract_row_affected "UPDATE 3" = .ok 3 ∧
    extract_row_affected "INSERT 0 5" = .ok 5 ∧
    extract_row_affected "SELECT" = .ok 0 := by
  refine ⟨?_, ?_, by rfl, by rfl, by rfl⟩
  · intro pre tok htok
    have h1 : (splitOnSpace (pre ++ ' ' :: tok)).getLast? =
        (splitOnSpace tok).getLast? := splitOnSpace_getLast_append pre tok
    rw [splitOnSpace_no_space tok htok] at h1
    simp [extract_row_affected, h1]
  · intro tag htag
    simp [extract_row_affected, splitOnSpace_no_space tag htag]

/-- C4 witness: the tag `"DELETE 7"` with space-free trailing token `"7"`. -/
theorem extract_row_affected_trailing_token_witness :
    extract_row_affected (String.mk ("DELETE".data ++ ' ' :: "7".data)) =
      .ok ((parseU64 "7".data).getD 0) :=
  extract_row_affected_trailing_token.1 "DELETE".data "7".data (by decide)

/-- C6: dropping the last owner of a statement submits a Close+Sync buffer
if and only if the statement name is non-empty and the weak client
back-reference upgrades; an unnamed statement submits nothing, and the
outcome is independent of whether the send can succeed (a send failure is
swallowed — the drop has no error channel at all). -/
theorem statement_drop_close (name : String) (upgraded connOpen : Bool) :
    (statementInnerDrop name upgraded connOpen =
        [[Frame.close name, Frame.sync]] ↔ name ≠ "" ∧ upgraded = true) ∧
    (name = "" ∨ upgraded = false →
      statementInnerDrop name upgraded connOpen = []) ∧
    statementInnerDrop name upgraded true =
      statementInnerDrop name upgraded false := by
  by_cases hn : name = ""
  · subst hn
    cases upgraded <;> simp [statementInnerDrop, String.isEmpty_iff]
  · have hne : name.isEmpty = false := by
      cases h : name.isEmpty with
      | false => rfl
      | true => exact absurd ((String.isEmpty_iff name).mp h) hn
    cases upgraded <;>
      simp [statementInnerDrop, hne, hn, innerClientSend]

/-- C6 witness: a named statement with a live client, and channel state
irrelevant. -/
theorem statement_drop_close_witness :
    (statementInnerDrop "s0" true false =
        [[Frame.close "s0", Frame.sync]] ↔ "s0" ≠ "" ∧ true = true) ∧
    ("s0" = "" ∨ true = false → statementInnerDrop "s0" true false = []) ∧
    statementInnerDrop "s0" true true = statementInnerDrop "s0" true false :=
  statement_drop_close "s0" true false

theorem position_eq_some_iff (p : Column → Bool) (l : List Column) (j : Nat) :
    position p l = some j ↔
      (∃ c, l.get? j = some c ∧ p c = true) ∧
      (∀ k, k < j → ∀ c, l.get? k = some c → p c = false) := by
  induction l generalizing j with
  | nil => simp [position]
  | cons x xs ih =>
    simp only [position]
    by_cases hx : p x
    · rw [if_pos hx]
      constructor
      · intro h
        injection h with h
        subst h
        exact ⟨⟨x, rfl, hx⟩, fun k hk => by omega⟩
      · rintro ⟨⟨c, hc, hpc⟩, hprev⟩
        cases j with
        | zero => rfl
        | succ j' =>
          have := hprev 0 (Nat.succ_pos j') x rfl
          rw [hx] at this
          cases this
    · rw [if_neg hx]
      cases j with
      | zero =>
        simp only [Option.map_eq_some']
        constructor
        · rintro ⟨a, -, h⟩
          omega
        · rintro ⟨⟨c, hc, hpc⟩, -⟩
          simp only [List.get?_cons_zero, Option.some.injEq] at hc
          subst hc
          exact absurd hpc (by simpa using hx)
      | succ j' =>
        have hmap : (position p xs).map (· + 1) = some (j' + 1) ↔
            position p xs = some j' := by
          cases hp : position p xs <;> simp [hp]
        rw [hmap, ih j']
        constructor
        · rintro ⟨⟨c, hc, hpc⟩, hprev⟩
          refine ⟨⟨c, by simpa using hc, hpc⟩, ?_⟩
          intro k hk c' hc'
          cases k with
          | zero =>
            simp only [List.get?_cons_zero, Option.some.injEq] at hc'
            subst hc'
            simpa using hx
          | succ k' =>
            exact hprev k' (by omega) c' (by simpa using hc')
        · rintro ⟨⟨c, hc, hpc⟩, hprev⟩
          refine ⟨⟨c, by simpa using hc, hpc⟩, ?_⟩
          intro k hk c' hc'
          exact hprev (k + 1) (by omega) c' (by simpa using hc')

theorem position_eq_none_iff (p : Column → Bool) (l : List Column) :
    position p l = none ↔ ∀ c ∈ l, p c = false := by
  induction l with
  | nil => simp [position]
  | cons x xs ih =>
    simp only [position]
    by_cases hx : p x
    · rw [if_pos hx]
      simp only [List.mem_cons]
      constructor
      · intro h
        cases h
      · intro h
        have := h x (Or.inl rfl)
        rw [hx] at this
        cases this
    · rw [if_neg hx]
      simp only [Option.map_eq_none', List.mem_cons]
      constructor
      · intro h c hc
        rcases hc with rfl | hc
        · simpa using hx
        · exact ih.mp h c hc
      · intro h
        exact ih.mpr fun c hc => h c (Or.inr hc)

theorem get_inner_some_ne_column {α : Type} (T : FromSqlTarget α) (row : Row)
    (idx : Nat) (d s : String) :
    get_inner T row (some idx) d ≠ .error (.column s) := by
  simp only [get_inner]
  split
  · simp
  · split
    · simp
    · split
      · simp
      · split <;> simp

/-- C2: a numeric index resolves to column `i` exactly when `i` is within
bounds (so `get(i)` with `i < len` never fails due to indexing, and an
out-of-bounds `i` yields a column-not-found error); a string identifier
resolves to the first column, in declaration order, whose name matches
exactly, and failing that to the first whose name matches ASCII
case-insensitively, yielding a column-not-found error only when neither
pass matches. -/
theorem row_index_resolution (cols : List Column) :
    (∀ i : Nat,
      (i < cols.length → rowIndexUsize i cols = some i) ∧
      (cols.length ≤ i → rowIndexUsize i cols = none)) ∧
    (∀ (s : String) (j : Nat),
      rowIndexStr s cols = some j ↔
        ((∃ c, cols.get? j = some c ∧ c.name = s) ∧
          ∀ k, k < j → ∀ c, cols.get? k = some c → c.name ≠ s) ∨
        ((∀ c ∈ cols, c.name ≠ s) ∧
          (∃ c, cols.get? j = some c ∧ eqIgnoreAsciiCase c.name s = true) ∧
          ∀ k, k < j → ∀ c, cols.get? k = some c →
            eqIgnoreAsciiCase c.name s = false)) ∧
    (∀ s : String,
      rowIndexStr s cols = none ↔
        ∀ c ∈ cols, c.name ≠ s ∧ eqIgnoreAsciiCase c.name s = false) ∧
    (∀ (T : FromSqlTarget Unit) (row : Row) (i : Nat) (s : String),
      row.statement.columns = cols →
      (i < cols.length → tryGetNat T row i ≠ .error (.column s)) ∧
      (cols.length ≤ i → tryGetNat T row i = .error (.column (toString i)))) := by
  refine ⟨?_, ?_, ?_, ?_⟩
  · intro i
    constructor
    · intro h
      simp [rowIndexUsize, Nat.not_le.mpr h, h]
    · intro h
      simp [rowIndexUsize, h]
  · intro s j
    unfold rowIndexStr
    cases hE : position (fun d => d.name = s) cols with
    | some i =>
      rw [position_eq_some_iff] at hE
      constructor
      · intro h
        injection h with h
        subst h
        left
        obtain ⟨⟨c, hc, hpc⟩, hprev⟩ := hE
        refine ⟨⟨c, hc, by simpa using hpc⟩, ?_⟩
        intro k hk c' hc'
        have := hprev k hk c' hc'
        simpa using this
      · rintro (⟨⟨c, hc, hpc⟩, hprev⟩ | ⟨hall, -⟩)
        · obtain ⟨⟨ci, hci, hpci⟩, hprevi⟩ := hE
          have hij : i = j := by
            rcases Nat.lt_trichotomy i j with hlt | heq | hgt
            · exact absurd (by simpa using hpci) (hprev i hlt ci hci)
            · exact heq
            · have := hprevi j hgt c hc
              simp only [decide_eq_false_iff_not] at this
              exact absurd hpc this
          subst hij
          rfl
        · obtain ⟨⟨ci, hci, hpci⟩, -⟩ := hE
          have hmem : ci ∈ cols := List.get?_mem hci
          exact absurd (by simpa using hpci) (hall ci hmem)
    | none =>
      rw [position_eq_none_iff] at hE
      have hall : ∀ c ∈ cols, c.name ≠ s := by
        intro c hc
        have := hE c hc
        simpa using this
      rw [position_eq_some_iff]
      constructor
      · rintro ⟨⟨c, hc, hpc⟩, hprev⟩
        right
        refine ⟨hall, ⟨c, hc, by simpa using hpc⟩, ?_⟩
        intro k hk c' hc'
        have := hprev k hk c' hc'
        simpa using this
      · rintro (⟨⟨c, hc, hpc⟩, -⟩ | ⟨-, ⟨c, hc, hpc⟩, hprev⟩)
        · have hmem : c ∈ cols := List.get?_mem hc
          exact absurd hpc (hall c hmem)
        · refine ⟨⟨c, hc, by simpa using hpc⟩, ?_⟩
          intro k hk c' hc'
          have := hprev k hk c' hc'
          simpa using this
  · intro s
    unfold rowIndexStr
    cases hE : position (fun d => d.name = s) cols with
    | some i =>
      rw [position_eq_some_iff] at hE
      obtain ⟨⟨c, hc, hpc⟩, -⟩ := hE
      have hmem : c ∈ cols := List.get?_mem hc
      constructor
      · intro h
        cases h
      · intro hcon
        exact absurd (by simpa using hpc) ((hcon c hmem).1)
    | none =>
      rw [position_eq_none_iff] at hE
      rw [position_eq_none_iff]
      constructor
      · intro h c hc
        refine ⟨?_, h c hc⟩
        have := hE c hc
        simpa using this
      · intro h c hc
        exact (h c hc).2
  · intro T row i s hcols
    constructor
    · intro h
      unfold tryGetNat
      rw [hcols]
      have : rowIndexUsize i cols = some i := by
        simp [rowIndexUsize, Nat.not_le.mpr h]
      rw [this]
      exact get_inner_some_ne_column T row i (toString i) s
    · intro h
      unfold tryGetNat
      rw [hcols]
      have : rowIndexUsize i cols = none := by
        simp [rowIndexUsize, h]
      rw [this]
      rfl

/-- C2 witness: two columns named `"id"` and `"ID"`; index 0 is in bounds,
index 5 is not. -/
theorem row_index_resolution_witness :
    rowIndexUsize 0 [{ name := "id", table_oid := none, column_id := none,
                       type := ⟨23⟩ },
                     { name := "ID", table_oid := none, column_id := none,
                       type := ⟨23⟩ }] = some 0 ∧
    rowIndexUsize 5 [{ name := "id", table_oid := none, column_id := none,
                       type := ⟨23⟩ },
                     { name := "ID", table_oid := none, column_id := none,
                       type := ⟨23⟩ }] = none := by
  constructor
  · exact ((row_index_resolution _).1 0).1 (by decide)
  · exact ((row_index_resolution _).1 5).2 (by decide)

/-- C5: the row-delivery pull loop shared by the prepared and typed paths
(the stream both `query_in` and `query_typed_in` return) maps DataRow to a
yielded `Row`, CommandComplete to an affected-count update without a yield,
EmptyQueryResponse and PortalSuspended to no-ops, ReadyForQuery to the end
of the sequence, and everything else to an unexpected-message protocol
error. -/
theorem row_stream_poll_mapping (stmt : Statement) (ra : Option Nat)
    (rest : List Message) :
    (∀ body, rowStreamNext stmt ra (.dataRow body :: rest) =
      .yield (Row.new stmt body) rest ra) ∧
    (∀ tag n, extract_row_affected tag = .ok n →
      rowStreamNext stmt ra (.commandComplete tag :: rest) =
        rowStreamNext stmt (some n) rest) ∧
    (rowStreamNext stmt ra (.emptyQueryResponse :: rest) =
      rowStreamNext stmt ra rest) ∧
    (rowStreamNext stmt ra (.portalSuspended :: rest) =
      rowStreamNext stmt ra rest) ∧
    (rowStreamNext stmt ra (.readyForQuery :: rest) = .finished ra) ∧
    (∀ m : Message,
      (∀ body, m ≠ .dataRow body) →
      (∀ tag, m ≠ .commandComplete tag) →
      m ≠ .emptyQueryResponse →
      m ≠ .portalSuspended →
      m ≠ .readyForQuery →
      (∀ e, m ≠ .errorResponse e) →
      rowStreamNext stmt ra (m :: rest) = .fail .unexpectedMessage) := by
  refine ⟨fun body => rfl, ?_, rfl, rfl, rfl, ?_⟩
  · intro tag n h
    simp [rowStreamNext, h]
  · intro m hdr hcc hempty hps hrfq herr
    cases m with
    | dataRow body => exact absurd rfl (hdr body)
    | commandComplete tag => exact absurd rfl (hcc tag)
    | emptyQueryResponse => exact absurd rfl hempty
    | portalSuspended => exact absurd rfl hps
    | readyForQuery => exact absurd rfl hrfq
    | errorResponse e => exact absurd rfl (herr e)
    | parseComplete => rfl
    | bindComplete => rfl
    | parameterDescription oids => rfl
    | rowDescription fields => rfl
    | noData => rfl
    | closeComplete => rfl

/-- C5 witness: one concrete step of each mapped kind. -/
theorem row_stream_poll_mapping_witness :
    (rowStreamNext { name := "", params := [], columns := [] } none
        [.commandComplete "UPDATE 3", .readyForQuery] =
      rowStreamNext { name := "", params := [], columns := [] } (some 3)
        [.readyForQuery]) ∧
    (rowStreamNext { name := "", params := [], columns := [] } none
        [.bindComplete, .readyForQuery] = .fail .unexpectedMessage) := by
  constructor
  · exact (row_stream_poll_mapping _ none [.readyForQuery]).2.1 "UPDATE 3" 3
      (by rfl)
  · exact (row_stream_poll_mapping _ none
      [.readyForQuery]).2.2.2.2.2 .bindComplete
      (fun body => by simp) (fun tag => by simp) (by simp) (by simp) (by simp)
      (fun e => by simp)

/-- C8: pulling the next message from a response stream yields a database
error exactly when the head of the remaining sequence is an ErrorResponse
(whatever follows it), yields `Closed` exactly when the channel has closed
(no message remains), and returns every other message unchanged. -/
theorem responses_poll_mapping :
    (∀ msgs : List Message,
      (∃ e, responsesNext msgs = .error (.db e)) ↔
        ∃ e rest, msgs = .errorResponse e :: rest) ∧
    (∀ msgs : List Message,
      responsesNext msgs = .error .closed ↔ msgs = []) ∧
    (∀ (m : Message) (rest : List Message),
      (∀ e, m ≠ .errorResponse e) →
      responsesNext (m :: rest) = .ok (m, rest)) := by
  refine ⟨?_, ?_, ?_⟩
  · intro msgs
    cases msgs with
    | nil => simp [responsesNext]
    | cons m rest =>
      cases m <;> simp [responsesNext]
  · intro msgs
    cases msgs with
    | nil => simp [responsesNext]
    | cons m rest =>
      cases m <;> simp [responsesNext]
  · intro m rest herr
    cases m with
    | errorResponse e => exact absurd rfl (herr e)
    | parseComplete => rfl
    | bindComplete => rfl
    | parameterDescription oids => rfl
    | rowDescription fields => rfl
    | noData => rfl
    | dataRow body => rfl
    | commandComplete tag => rfl
    | emptyQueryResponse => rfl
    | portalSuspended => rfl
    | readyForQuery => rfl
    | closeComplete => rfl

/-- C8 witness: a DataRow head passes through unchanged. -/
theorem responses_poll_mapping_witness :
    responsesNext [Message.dataRow { fields := [] }, Message.readyForQuery] =
      .ok (Message.dataRow { fields := [] }, [Message.readyForQuery]) :=
  responses_poll_mapping.2.2 (Message.dataRow { fields := [] })
    [Message.readyForQuery] (fun e => by simp)

/-- C7: after Parse+Describe('S')+Sync are submitted, `prepare` succeeds on
exactly the inbound sequences ParseComplete, ParameterDescription, then
RowDescription or NoData; a non-error message of any other kind at any of
the three positions fails with an unexpected-message protocol error (an
ErrorResponse instead surfaces as a database error through the response
pull, and a closed channel as `Closed`). -/
theorem prepare_message_sequence (name : String) (resolve : TypeCatalog)
    (oids : List Nat) : 
    (∀ (fields : List FieldDescription) (rest : List Message),
      prepare_in name resolve
          (.parseComplete :: .parameterDescription oids ::
            .rowDescription fields :: rest) =
        .ok { name := name, params := oids.map resolve,
              columns := fields.map (columnOfField resolve) }) ∧
    (∀ rest : List Message,
      prepare_in name resolve
          (.parseComplete :: .parameterDescription oids :: .noData :: rest) =
        .ok { name := name, params := oids.map resolve, columns := [] }) ∧
    (∀ (m : Message) (tl : List Message),
      m ≠ .parseComplete →
      (∀ e, m ≠ .errorResponse e) →
      prepare_in name resolve (m :: tl) = .error .unexpectedMessage) ∧
    (∀ (m : Message) (tl : List Message),
      (∀ os, m ≠ .parameterDescription os) →
      (∀ e, m ≠ .errorResponse e) →
      prepare_in name resolve (.parseComplete :: m :: tl) =
        .error .unexpectedMessage) ∧
    (∀ (m : Message) (tl : List Message),
      (∀ fs, m ≠ .rowDescription fs) →
      m ≠ .noData →
      (∀ e, m ≠ .errorResponse e) →
      prepare_in name resolve
          (.parseComplete :: .parameterDescription oids :: m :: tl) =
        .error .unexpectedMessage) ∧
    (∀ (msgs : List Message) (st : Statement),
      prepare_in name resolve msgs = .ok st →
      ∃ (os : List Nat) (rest : List Message),
        (∃ fields, msgs = .parseComplete :: .parameterDescription os ::
            .rowDescription fields :: rest) ∨
        msgs = .parseComplete :: .parameterDescription os :: .noData :: rest) := by
  refine ⟨fun fields rest => rfl, fun rest => rfl, ?_, ?_, ?_, ?_⟩
  · intro m tl hm herr
    cases m <;> first
      | rfl
      | exact absurd rfl hm
      | exact absurd rfl (herr _)
  · intro m tl hm herr
    cases m <;> first
      | rfl
      | exact absurd rfl (hm _)
      | exact absurd rfl (herr _)
  · intro m tl hrd hnd herr
    cases m <;> first
      | rfl
      | exact absurd rfl (hrd _)
      | exact absurd rfl hnd
      | exact absurd rfl (herr _)
  · intro msgs st h
    match msgs with
    | [] => cases h
    | m1 :: tl1 =>
      cases m1 <;> try (cases h)
      case parseComplete =>
        match tl1 with
        | [] => cases h
        | m2 :: tl2 =>
          cases m2 <;> try (cases h)
          case parameterDescription os =>
            match tl2 with
            | [] => cases h
            | m3 :: tl3 =>
              cases m3 <;> try (cases h)
              case rowDescription fields =>
                exact ⟨os, tl3, Or.inl ⟨fields, rfl⟩⟩
              case noData =>
                exact ⟨os, tl3, Or.inr rfl⟩

/-- C7 witness: a NoData handshake succeeds; a BindComplete in first
position is an unexpected-message error. -/
theorem prepare_message_sequence_witness :
    prepare_in "s0" (fun _ => ⟨23⟩)
        [.parseComplete, .parameterDescription [], .noData] =
      .ok { name := "s0", params := [], columns := [] } ∧
    prepare_in "s0" (fun _ => ⟨23⟩) [.bindComplete] =
      .error .unexpectedMessage := by
  constructor
  · exact (prepare_message_sequence "s0" (fun _ => ⟨23⟩) []).2.1 []
  · exact (prepare_message_sequence "s0" (fun _ => ⟨23⟩) []).2.2.1
      .bindComplete [] (by simp) (fun e => by simp)

theorem queryOptLoop_finished (stmt : Statement) (first : Option Row)
    (ra : Option Nat) (msgs : List Message) (raf : Option Nat)
    (h : rowStreamNext stmt ra msgs = .finished raf) :
    queryOptLoop stmt first ra msgs = .ok first := by
  conv_lhs => unfold queryOptLoop
  split <;> simp_all

theorem queryOptLoop_yield (stmt : Statement) (first : Option Row)
    (ra : Option Nat) (msgs : List Message) (row : Row)
    (rest : List Message) (ra' : Option Nat)
    (h : rowStreamNext stmt ra msgs = .yield row rest ra') :
    queryOptLoop stmt first ra msgs =
      if first.isSome then .error .rowCount
      else queryOptLoop stmt (some row) ra' rest := by
  conv_lhs => unfold queryOptLoop
  split <;> simp_all

/-- C3: over a result stream that delivers its data rows and then
terminates normally (CommandComplete then ReadyForQuery), the
at-most-one-row loop returns an empty result for 0 rows, the row for
exactly 1 row, and a row-count error for 2 or more rows — the loop keeps
reading past a first row, so a second row is always detected. -/
theorem query_opt_row_cardinality (stmt : Statement) (tag : String)
    (bodies : List DataRowBody) :
    (bodies = [] →
      queryOptLoop stmt none none
          (bodies.map Message.dataRow ++
            [.commandComplete tag, .readyForQuery]) = .ok none) ∧
    (∀ b, bodies = [b] →
      queryOptLoop stmt none none
          (bodies.map Message.dataRow ++
            [.commandComplete tag, .readyForQuery]) =
        .ok (some (Row.new stmt b))) ∧
    (2 ≤ bodies.length →
      queryOptLoop stmt none none
          (bodies.map Message.dataRow ++
            [.commandComplete tag, .readyForQuery]) =
      .error .rowCount) := by
  obtain ⟨-, n, hn⟩ := extract_ok_exists tag
  have hterm : ∀ ra : Option Nat,
      rowStreamNext stmt ra
        [Message.commandComplete tag, Message.readyForQuery] =
      .finished (some n) := by
    intro ra
    simp [rowStreamNext, hn]
  refine ⟨?_, ?_, ?_⟩
  · rintro rfl
    simp only [List.map_nil, List.nil_append]
    exact queryOptLoop_finished stmt none none _ (some n) (hterm none)
  · rintro b rfl
    simp only [List.map_cons, List.map_nil, List.nil_append,
      List.cons_append]
    rw [queryOptLoop_yield stmt none none
      (Message.dataRow b ::
        [Message.commandComplete tag, Message.readyForQuery])
      (Row.new stmt b)
      [Message.commandComplete tag, Message.readyForQuery] none rfl]
    rw [if_neg (by simp)]
    exact queryOptLoop_finished stmt (some (Row.new stmt b)) none _
      (some n) (hterm none)
  · intro hlen
    match bodies with
    | [] => simp at hlen
    | [b] => simp at hlen
    | b1 :: b2 :: bs =>
      simp only [List.map_cons, List.cons_append]
      rw [queryOptLoop_yield stmt none none
        (Message.dataRow b1 :: Message.dataRow b2 ::
          (List.map Message.dataRow bs ++
            [Message.commandComplete tag, Message.readyForQuery]))
        (Row.new stmt b1)
        (Message.dataRow b2 ::
          (List.map Message.dataRow bs ++
            [Message.commandComplete tag, Message.readyForQuery]))
        none rfl]
      rw [if_neg (by simp)]
      rw [queryOptLoop_yield stmt (some (Row.new stmt b1)) none
        (Message.dataRow b2 ::
          (List.map Message.dataRow bs ++
            [Message.commandComplete tag, Message.readyForQuery]))
        (Row.new stmt b2)
        (List.map Message.dataRow bs ++
          [Message.commandComplete tag, Message.readyForQuery])
        none rfl]
      rw [if_pos (by simp)]

/-- C3 witness: streams with zero, one and two rows. -/
theorem query_opt_row_cardinality_witness :
    queryOptLoop { name := "", params := [], columns := [] } none none
        [.commandComplete "SELECT 0", .readyForQuery] = .ok none ∧
    queryOptLoop { name := "", params := [], columns := [] } none none
        [.dataRow { fields := [] }, .commandComplete "SELECT 1",
         .readyForQuery] =
      .ok (some (Row.new { name := "", params := [], columns := [] }
        { fields := [] })) ∧
    queryOptLoop { name := "", params := [], columns := [] } none none
        [.dataRow { fields := [] }, .dataRow { fields := [] },
         .commandComplete "SELECT 2", .readyForQuery] =
      .error .rowCount := by
  refine ⟨?_, ?_, ?_⟩
  · exact (query_opt_row_cardinality _ "SELECT 0" []).1 rfl
  · exact (query_opt_row_cardinality _ "SELECT 1" [{ fields := [] }]).2.1
      { fields := [] } rfl
  · exact (query_opt_row_cardinality _ "SELECT 2"
      [{ fields := [] }, { fields := [] }]).2.2 (by decide)

/-- A one-column statement used to exhibit that `Row::new` does not check
the DataRow field count against the statement's column count. -/
def oneColumnStatement : Statement :=
  { name := ""
    params := []
    columns := [{ name := "a", table_oid := none, column_id := none,
                  type := ⟨23⟩ }] }

/-- A DataRow body carrying no fields at all. -/
def emptyDataRowBody : DataRowBody := { fields := [] }

/-- C9 counterexample: the row stream yields a `Row` built from a DataRow
body with 0 fields against a statement with 1 column; its range vector has
length 0, not `statement.columns().len()` — the invariant claimed
unconditionally holds only when the backend's DataRow matches the
statement. -/
theorem row_ranges_counterexample :
    rowStreamNext oneColumnStatement none
        [.dataRow emptyDataRowBody, .readyForQuery] =
      .yield (Row.new oneColumnStatement emptyDataRowBody)
        [.readyForQuery] none ∧
    (Row.new oneColumnStatement emptyDataRowBody).ranges.length = 0 ∧
    oneColumnStatement.columns.length = 1 := by
  refine ⟨rfl, rfl, rfl⟩

/-- C9 as amended: the range vector of a constructed `Row` always has
exactly one entry per field of the DataRow body (so it equals the
statement's column count whenever the body matches the statement, as the
wire protocol guarantees for well-behaved backends), and a `none` entry
denotes SQL NULL: column access hands the decoder the null branch, not a
byte slice. -/
theorem row_ranges_track_body (stmt : Statement) (body : DataRowBody) :
    (Row.new stmt body).ranges.length = body.fields.length ∧
    (body.fields.length = stmt.columns.length →
      (Row.new stmt body).ranges.length = stmt.columns.length) ∧
    (∀ idx : Nat,
      (Row.new stmt body).col_buffer idx = body.fields.get? idx) ∧
    (∀ (T : FromSqlTarget Unit) (idx : Nat) (col : Column) (d : String),
      stmt.columns.get? idx = some col →
      body.fields.get? idx = some none →
      T.accepts col.type = true →
      get_inner T (Row.new stmt body) (some idx) d =
        match T.fromSqlNullable col.type none with
        | .error e => .error (.fromSql idx e)
        | .ok v => .ok v) := by
  refine ⟨rfl, ?_, fun idx => rfl, ?_⟩
  · intro h
    show body.fields.length = stmt.columns.length
    exact h
  · intro T idx col d hcol hnull hacc
    have hcols : stmt.columns[idx]? = some col := by
      rw [← List.get?_eq_getElem?]
      exact hcol
    have hbuf : body.fields[idx]? = some none := by
      rw [← List.get?_eq_getElem?]
      exact hnull
    simp [get_inner, Row.new, Row.col_buffer, hcols, hacc, hbuf]
    cases hF : T.fromSqlNullable col.type none <;> simp [hF]

/-- C9 witness: a one-field NULL row against the one-column statement. -/
theorem row_ranges_track_body_witness :
    (Row.new oneColumnStatement { fields := [none] }).ranges.length =
      oneColumnStatement.columns.length :=
  (row_ranges_track_body oneColumnStatement { fields := [none] }).2.1
    (by decide)
